import Mathlib

/-!
Shallow embedding of the GPU histogram-construction core of
`src/src/treelearner/gpu_tree_learner.h` (class `GPUTreeLearner`).

The repository ships only the header: the inline body of `SetBaggingData`
and the constants `kMaxLogWorkgroupsPerFeature` / `preallocd_max_num_wg_`
are embedded directly from the source; every other operation is declared
in the header but implemented in a missing translation unit, so those
operations are modelled from the spec (each such definition says so in
its doc comment).

Machine types: `data_size_t` (a 32-bit int in the source) is embedded as
`Nat` since all quantities involved are non-negative row counts and bin
indices; `score_t` (a floating-point gradient type) is embedded as `Int`,
an exact stand-in adequate for the aggregation claims, which are about
which rows contribute where, not about rounding.
-/

namespace LightGBM

/-- Row-count type, `data_size_t` in the source. -/
abbrev data_size_t := Nat

/-- Gradient/hessian scalar, `score_t` in the source, embedded exactly. -/
abbrev score_t := Int

/-- Histogram bin entry for the GPU, from `gpu_tree_learner.h` lines 74-78:
fields `sum_gradients`, `sum_hessians`, `cnt`. -/
structure GPUHistogramBinEntry where
  sum_gradients : score_t
  sum_hessians : score_t
  cnt : Nat
  deriving Repr, DecidableEq

/-- The all-zero bin entry, the state of an accumulator bin after the
zero-initialization the spec requires before each launch. -/
def GPUHistogramBinEntry.zero : GPUHistogramBinEntry := ⟨0, 0, 0⟩

/-- Modelled from the spec: the device histogram accumulation performed by
`GPUHistogram` / the OpenCL kernels (implementation not in src). Starting
from zero-initialized bins, every row of the leaf row set contributes its
gradient, hessian and a count of one to the bin entry `bin r` of its
feature. Processing is row-by-row over the leaf row set. -/
def constructHistogram (bin : Nat → Nat) (grad hess : Nat → score_t) :
    List Nat → Nat → GPUHistogramBinEntry
  | [], _ => GPUHistogramBinEntry.zero
  | r :: rs, b =>
    let h := constructHistogram bin grad hess rs b
    if bin r = b then
      ⟨h.sum_gradients + grad r, h.sum_hessians + hess r, h.cnt + 1⟩
    else h

/-- Reference host-computed histogram, written from the spec's words for
the round-trip property: the entry of bin `b` holds the sums of gradients
and hessians, and the count, over exactly the rows of the set whose bin
index is `b`. -/
def referenceHistogram (bin : Nat → Nat) (grad hess : Nat → score_t)
    (rows : List Nat) (b : Nat) : GPUHistogramBinEntry :=
  let sel := rows.filter (fun r => bin r == b)
  ⟨(sel.map grad).sum, (sel.map hess).sum, sel.length⟩

/-- Log2 of max number of workgroups per feature, `gpu_tree_learner.h`
line 136: `const int kMaxLogWorkgroupsPerFeature = 10; // 2^10`. -/
def kMaxLogWorkgroupsPerFeature : Nat := 10

/-- Max total number of workgroups with preallocated workspace,
`gpu_tree_learner.h` line 139: `int preallocd_max_num_wg_ = 1024;`. -/
def preallocd_max_num_wg_ : Nat := 1024

/-- Modelled from the spec: `GetNumWorkgroupsPerFeature` is declared at
`gpu_tree_learner.h` line 85 but its body is not in src. The spec fixes
the contract — a monotone step function of the leaf row count into
`[0, kMaxLogWorkgroupsPerFeature]`, with the threshold table left to
calibration — so the model grows the log2 degree with the row count in
blocks of 1024 rows and clamps at the ceiling. -/
def GetNumWorkgroupsPerFeature (leaf_num_data : data_size_t) : Nat :=
  min (Nat.log 2 (leaf_num_data / 1024 + 1)) kMaxLogWorkgroupsPerFeature

/-- Maximum bin count over the dense features, the source's `max_num_bin_`
(header line 181) restricted to the dense feature map. -/
def maxDenseBin (binCounts : List Nat) : Nat := binCounts.foldr max 0

/-- Modelled from the spec: the layout planner's `dword_features_`
(declared at header lines 171-175, computed in the missing translation
unit). Per the header comment and the spec, with bin size > 16 there are
4 features per DWORD, with bin size <= 16 there are 8. -/
def dword_features_ (binCounts : List Nat) : Nat :=
  if 16 < maxDenseBin binCounts then 4 else 8

/-- Modelled from the spec: the selected device kernel bin size
`device_bin_size_` (header line 183, computed in the missing translation
unit). The kernel family is chosen among the bin-width families 16, 64,
256 by the maximum bin count across dense features. -/
def device_bin_size_ (binCounts : List Nat) : Nat :=
  if maxDenseBin binCounts ≤ 16 then 16
  else if maxDenseBin binCounts ≤ 64 then 64
  else 256

/-- The three supported bin-width kernel families, matching the kernel
sources `kernel16_src_`, `kernel64_src_`, `kernel256_src_` of the header. -/
def kernelFamilies : List Nat := [16, 64, 256]

/-- State of a `GPUTreeLearner`, restricted to the fields the claims are
about. `num_data_` is the full dataset size held by the base learner;
`bagging_indices_` records the indices passed to the base class by
`SetBaggingData`; `device_data_indices_` models the device-resident copy
of the leaf row indices; `host_histogram_outputs_` models the host output
region the device writes histograms into; `pending_token_` models the
completion token registered by an asynchronous construction call. -/
structure GPUTreeLearnerState where
  num_data_ : data_size_t
  num_dense_features_ : Nat
  use_bagging_ : Bool
  bagging_indices_ : Option (List Nat)
  device_data_indices_ : Option (List Nat)
  host_histogram_outputs_ : Nat → GPUHistogramBinEntry
  pending_token_ : Bool

/-- Embedded from `gpu_tree_learner.h` lines 41-52. The base-class call
`SerialTreeLearner::SetBaggingData` (not in src) is modelled from the
spec as recording the bagging indices; then, exactly as the inline body:
if `used_indices` is non-null and `num_data != num_data_` the flag is set
and the function returns, otherwise the flag is cleared. -/
def SetBaggingData (st : GPUTreeLearnerState)
    (used_indices : Option (List Nat)) (num_data : data_size_t) :
    GPUTreeLearnerState :=
  let st : GPUTreeLearnerState := { st with bagging_indices_ := used_indices }
  match used_indices with
  | some _ =>
    if num_data ≠ st.num_data_ then { st with use_bagging_ := true }
    else { st with use_bagging_ := false }
  | none => { st with use_bagging_ := false }

/-- Modelled from the spec: the part of `BeforeTrain` (declared at header
line 55, body not in src) the bagging claim is about — when the bagging
flag is set, the full subset's indices are re-copied to the device before
the next accelerated leaf histogram request. -/
def BeforeTrain (st : GPUTreeLearnerState) : GPUTreeLearnerState :=
  if st.use_bagging_ then { st with device_data_indices_ := st.bagging_indices_ }
  else st

/-- Modelled from the spec: `ConstructGPUHistogramsAsync` (declared at
header lines 129-133, body not in src). With zero dense features or zero
rows it returns `false` and performs no device work, leaving the state
untouched; otherwise it copies the indices to the device, launches the
histogram construction over the leaf row set (the device work, modelled
by its final effect on the host output region), registers a completion
token, and returns `true`. -/
def ConstructGPUHistogramsAsync (st : GPUTreeLearnerState)
    (bin : Nat → Nat) (grad hess : Nat → score_t)
    (data_indices : List Nat) (num_data : data_size_t) :
    Bool × GPUTreeLearnerState :=
  if st.num_dense_features_ = 0 ∨ num_data = 0 then (false, st)
  else
    (true, { st with
      device_data_indices_ := some data_indices,
      host_histogram_outputs_ := constructHistogram bin grad hess data_indices,
      pending_token_ := true })

/-- Modelled from the spec: `WaitAndGetHistograms` (header lines 111-112,
body not in src) blocks on the completion token and reads the histograms
from the host output region; consuming the token clears it. -/
def WaitAndGetHistograms (st : GPUTreeLearnerState) :
    (Nat → GPUHistogramBinEntry) × GPUTreeLearnerState :=
  (st.host_histogram_outputs_, { st with pending_token_ := false })

end LightGBM

namespace LightGBM

/-- Helper: the count accumulated by `constructHistogram` over all bins of
one feature equals the number of rows, provided every row bins in range. -/
theorem sum_cnt_bins (bin : Nat → Nat) (grad hess : Nat → score_t)
    (rows : List Nat) (nbins : Nat) (hb : ∀ r ∈ rows, bin r < nbins) :
    ∑ b ∈ Finset.range nbins, (constructHistogram bin grad hess rows b).cnt
      = rows.length := by
  induction rows with
  | nil => simp [constructHistogram, GPUHistogramBinEntry.zero]
  | cons r rs ih =>
    have hr : bin r ∈ Finset.range nbins :=
      Finset.mem_range.mpr (hb r (List.mem_cons_self r rs))
    have ihr := ih (fun x hx => hb x (List.mem_cons_of_mem r hx))
    calc
      ∑ b ∈ Finset.range nbins,
          (constructHistogram bin grad hess (r :: rs) b).cnt
        = ∑ b ∈ Finset.range nbins,
            ((constructHistogram bin grad hess rs b).cnt
              + if bin r = b then 1 else 0) := by
          refine Finset.sum_congr rfl (fun b _ => ?_)
          by_cases h : bin r = b <;> simp [constructHistogram, h]
      _ = (∑ b ∈ Finset.range nbins,
            (constructHistogram bin grad hess rs b).cnt)
          + ∑ b ∈ Finset.range nbins, (if bin r = b then 1 else 0) := by
          rw [Finset.sum_add_distrib]
      _ = rs.length + 1 := by
          rw [ihr, Finset.sum_ite_eq, if_pos hr]
      _ = (r :: rs).length := by simp

/-- Helper: the gradients accumulated by `constructHistogram` over all
bins of one feature sum to the total gradient over the rows. -/
theorem sum_grad_bins (bin : Nat → Nat) (grad hess : Nat → score_t)
    (rows : List Nat) (nbins : Nat) (hb : ∀ r ∈ rows, bin r < nbins) :
    ∑ b ∈ Finset.range nbins,
        (constructHistogram bin grad hess rows b).sum_gradients
      = (rows.map grad).sum := by
  induction rows with
  | nil => simp [constructHistogram, GPUHistogramBinEntry.zero]
  | cons r rs ih =>
    have hr : bin r ∈ Finset.range nbins :=
      Finset.mem_range.mpr (hb r (List.mem_cons_self r rs))
    have ihr := ih (fun x hx => hb x (List.mem_cons_of_mem r hx))
    calc
      ∑ b ∈ Finset.range nbins,
          (constructHistogram bin grad hess (r :: rs) b).sum_gradients
        = ∑ b ∈ Finset.range nbins,
            ((constructHistogram bin grad hess rs b).sum_gradients
              + if bin r = b then grad r else 0) := by
          refine Finset.sum_congr rfl (fun b _ => ?_)
          by_cases h : bin r = b <;> simp [constructHistogram, h]
      _ = (∑ b ∈ Finset.range nbins,
            (constructHistogram bin grad hess rs b).sum_gradients)
          + ∑ b ∈ Finset.range nbins, (if bin r = b then grad r else 0) := by
          rw [Finset.sum_add_distrib]
      _ = (rs.map grad).sum + grad r := by
          rw [ihr, Finset.sum_ite_eq, if_pos hr]
      _ = ((r :: rs).map grad).sum := by simp [add_comm]

/-- Helper: the hessians accumulated by `constructHistogram` over all
bins of one feature sum to the total hessian over the rows. -/
theorem sum_hess_bins (bin : Nat → Nat) (grad hess : Nat → score_t)
    (rows : List Nat) (nbins : Nat) (hb : ∀ r ∈ rows, bin r < nbins) :
    ∑ b ∈ Finset.range nbins,
        (constructHistogram bin grad hess rows b).sum_hessians
      = (rows.map hess).sum := by
  induction rows with
  | nil => simp [constructHistogram, GPUHistogramBinEntry.zero]
  | cons r rs ih =>
    have hr : bin r ∈ Finset.range nbins :=
      Finset.mem_range.mpr (hb r (List.mem_cons_self r rs))
    have ihr := ih (fun x hx => hb x (List.mem_cons_of_mem r hx))
    calc
      ∑ b ∈ Finset.range nbins,
          (constructHistogram bin grad hess (r :: rs) b).sum_hessians
        = ∑ b ∈ Finset.range nbins,
            ((constructHistogram bin grad hess rs b).sum_hessians
              + if bin r = b then hess r else 0) := by
          refine Finset.sum_congr rfl (fun b _ => ?_)
          by_cases h : bin r = b <;> simp [constructHistogram, h]
      _ = (∑ b ∈ Finset.range nbins,
            (constructHistogram bin grad hess rs b).sum_hessians)
          + ∑ b ∈ Finset.range nbins, (if bin r = b then hess r else 0) := by
          rw [Finset.sum_add_distrib]
      _ = (rs.map hess).sum + hess r := by
          rw [ihr, Finset.sum_ite_eq, if_pos hr]
      _ = ((r :: rs).map hess).sum := by simp [add_comm]

/-- Helper: the device-modelled histogram agrees bin by bin with the
reference host-computed histogram. -/
theorem construct_eq_reference (bin : Nat → Nat) (grad hess : Nat → score_t)
    (rows : List Nat) (b : Nat) :
    constructHistogram bin grad hess rows b
      = referenceHistogram bin grad hess rows b := by
  induction rows with
  | nil => simp [constructHistogram, referenceHistogram, GPUHistogramBinEntry.zero]
  | cons r rs ih =>
    by_cases h : bin r = b
    · simp [constructHistogram, referenceHistogram, List.filter_cons, h, ih,
        add_comm]
    · simp [constructHistogram, referenceHistogram, List.filter_cons, h, ih]

/-- C1: for every valid leaf row set (every row binning below the feature
bin count), after a construction call completes the sum of the `cnt`
fields across all bins of one dense feature's histogram equals the number
of rows in the leaf row set — every row contributes exactly once. -/
theorem histogram_cnt_counts_rows_once (bin : Nat → Nat)
    (grad hess : Nat → score_t) (rows : List Nat) (nbins : Nat)
    (hb : ∀ r ∈ rows, bin r < nbins) :
    ∑ b ∈ Finset.range nbins, (constructHistogram bin grad hess rows b).cnt
      = rows.length :=
  sum_cnt_bins bin grad hess rows nbins hb

/-- Witness for C1 at a concrete leaf row set. -/
theorem histogram_cnt_counts_rows_once_witness :
    ∑ b ∈ Finset.range 4,
        (constructHistogram (fun r => r % 4) (fun r => r) (fun _ => 1)
          [0, 1, 2, 5, 6, 9] b).cnt
      = 6 :=
  histogram_cnt_counts_rows_once (fun r => r % 4) (fun r => r) (fun _ => 1)
    [0, 1, 2, 5, 6, 9] 4 (by decide)

/-- C2: the device-constructed histogram round-trips against the reference
host-computed histogram: per-bin entries match the reference for exactly
the rows of the set, and the aggregates of `sum_gradients` and
`sum_hessians` over all bins of one dense feature equal the unweighted
sums of the gradients and the hessians over those rows. -/
theorem histogram_roundtrips_reference (bin : Nat → Nat)
    (grad hess : Nat → score_t) (rows : List Nat) (nbins : Nat)
    (hb : ∀ r ∈ rows, bin r < nbins) :
    (∀ b, constructHistogram bin grad hess rows b
        = referenceHistogram bin grad hess rows b)
    ∧ ∑ b ∈ Finset.range nbins,
        (constructHistogram bin grad hess rows b).sum_gradients
      = (rows.map grad).sum
    ∧ ∑ b ∈ Finset.range nbins,
        (constructHistogram bin grad hess rows b).sum_hessians
      = (rows.map hess).sum :=
  ⟨fun b => construct_eq_reference bin grad hess rows b,
   sum_grad_bins bin grad hess rows nbins hb,
   sum_hess_bins bin grad hess rows nbins hb⟩

/-- Witness for C2 at a concrete leaf row set. -/
theorem histogram_roundtrips_reference_witness :
    constructHistogram (fun r => r % 3) (fun r => (r : Int) - 2) (fun r => r)
        [0, 1, 4, 5] 1
      = referenceHistogram (fun r => r % 3) (fun r => (r : Int) - 2)
          (fun r => r) [0, 1, 4, 5] 1
    ∧ ∑ b ∈ Finset.range 3,
        (constructHistogram (fun r => r % 3) (fun r => (r : Int) - 2)
          (fun r => r) [0, 1, 4, 5] b).sum_gradients
      = 2 := by
  have h := histogram_roundtrips_reference (fun r => r % 3)
    (fun r => (r : Int) - 2) (fun r => r) [0, 1, 4, 5] 3 (by decide)
  refine ⟨h.1 1, ?_⟩
  rw [h.2.1]
  decide

/-- Sample learner state with zero dense features, used by witnesses. -/
def sampleSparseState : GPUTreeLearnerState :=
  { num_data_ := 8
    num_dense_features_ := 0
    use_bagging_ := false
    bagging_indices_ := none
    device_data_indices_ := none
    host_histogram_outputs_ := fun _ => GPUHistogramBinEntry.zero
    pending_token_ := false }

/-- Sample learner state with dense features, used by witnesses. -/
def sampleDenseState : GPUTreeLearnerState :=
  { num_data_ := 8
    num_dense_features_ := 3
    use_bagging_ := false
    bagging_indices_ := none
    device_data_indices_ := none
    host_histogram_outputs_ := fun _ => GPUHistogramBinEntry.zero
    pending_token_ := false }

/-- Sample learner state with dense features and stale buffer leftovers
from earlier work, used by witnesses. -/
def sampleStaleState : GPUTreeLearnerState :=
  { num_data_ := 8
    num_dense_features_ := 3
    use_bagging_ := true
    bagging_indices_ := some [7]
    device_data_indices_ := some [7]
    host_histogram_outputs_ := fun _ => ⟨5, 5, 5⟩
    pending_token_ := true }

/-- C3: `ConstructGPUHistogramsAsync` returns `false` and performs no
device work (the learner state is left untouched) exactly when the number
of dense features is zero or the leaf row count is zero; otherwise it
returns `true` and leaves a completion token registered for the call. -/
theorem constructAsync_false_iff_degenerate (st : GPUTreeLearnerState)
    (bin : Nat → Nat) (grad hess : Nat → score_t)
    (data_indices : List Nat) (num_data : data_size_t) :
    ((ConstructGPUHistogramsAsync st bin grad hess data_indices num_data).fst
        = false
      ↔ st.num_dense_features_ = 0 ∨ num_data = 0)
    ∧ (st.num_dense_features_ = 0 ∨ num_data = 0 →
        (ConstructGPUHistogramsAsync st bin grad hess data_indices
          num_data).snd = st)
    ∧ (¬(st.num_dense_features_ = 0 ∨ num_data = 0) →
        (ConstructGPUHistogramsAsync st bin grad hess data_indices
            num_data).fst = true
        ∧ (ConstructGPUHistogramsAsync st bin grad hess data_indices
            num_data).snd.pending_token_ = true) := by
  by_cases h : st.num_dense_features_ = 0 ∨ num_data = 0 <;>
    simp [ConstructGPUHistogramsAsync, h]

/-- Witness for C3: the degenerate branch at a zero-dense-feature state
and the launched branch at a dense state. -/
theorem constructAsync_false_iff_degenerate_witness :
    (ConstructGPUHistogramsAsync sampleSparseState (fun r => r) (fun _ => 0)
        (fun _ => 0) [0, 1] 2).snd = sampleSparseState
    ∧ (ConstructGPUHistogramsAsync sampleDenseState (fun r => r) (fun _ => 0)
        (fun _ => 0) [0, 1] 2).fst = true :=
  ⟨(constructAsync_false_iff_degenerate sampleSparseState (fun r => r)
      (fun _ => 0) (fun _ => 0) [0, 1] 2).2.1 (Or.inl rfl),
   ((constructAsync_false_iff_degenerate sampleDenseState (fun r => r)
      (fun _ => 0) (fun _ => 0) [0, 1] 2).2.2 (by simp [sampleDenseState])).1⟩

/-- C4: the workgroup sizing policy is a monotone step function of the
leaf row count, and for every row count the returned log2 degree lies in
the range from 0 to `kMaxLogWorkgroupsPerFeature` (10). -/
theorem workgroups_monotone_and_bounded :
    (∀ a b : data_size_t, a ≤ b →
        GetNumWorkgroupsPerFeature a ≤ GetNumWorkgroupsPerFeature b)
    ∧ ∀ n : data_size_t,
        GetNumWorkgroupsPerFeature n ≤ kMaxLogWorkgroupsPerFeature := by
  constructor
  · intro a b hab
    exact min_le_min
      (Nat.log_mono_right (Nat.add_le_add_right (Nat.div_le_div_right hab) 1))
      le_rfl
  · intro n
    exact min_le_right _ _

/-- Witness for C4 at concrete row counts. -/
theorem workgroups_monotone_and_bounded_witness :
    GetNumWorkgroupsPerFeature 1000 ≤ GetNumWorkgroupsPerFeature 100000 :=
  workgroups_monotone_and_bounded.1 1000 100000 (by norm_num)

/-- C5: the device kernel family is selected from the bin-width families
16, 64 and 256 by the maximum bin count across dense features: the chosen
device bin size is the smallest family at least that maximum. -/
theorem device_bin_size_smallest_family (binCounts : List Nat)
    (hle : maxDenseBin binCounts ≤ 256) :
    device_bin_size_ binCounts ∈ kernelFamilies
    ∧ maxDenseBin binCounts ≤ device_bin_size_ binCounts
    ∧ ∀ fam ∈ kernelFamilies, maxDenseBin binCounts ≤ fam →
        device_bin_size_ binCounts ≤ fam := by
  unfold device_bin_size_ kernelFamilies
  split_ifs with h1 h2 <;>
    refine ⟨by simp, by omega, ?_⟩ <;>
    intro fam hf hmf <;>
    simp only [List.mem_cons, List.not_mem_nil, or_false] at hf <;>
    obtain rfl | rfl | rfl := hf <;> omega

/-- Witness for C5 at the spec's scenario of dense bin counts 16, 64, 256. -/
theorem device_bin_size_smallest_family_witness :
    maxDenseBin [16, 64, 256] ≤ device_bin_size_ [16, 64, 256] :=
  (device_bin_size_smallest_family [16, 64, 256] (by decide)).2.1

/-- C6: the layout planner packs 4 features per 4-byte transfer unit when
the maximum bin count among dense features exceeds 16, and 8 otherwise. -/
theorem dword_features_packing (binCounts : List Nat) :
    (16 < maxDenseBin binCounts → dword_features_ binCounts = 4)
    ∧ (maxDenseBin binCounts ≤ 16 → dword_features_ binCounts = 8) := by
  constructor
  · intro h
    simp [dword_features_, h]
  · intro h
    simp [dword_features_, Nat.not_lt.mpr h]

/-- Witness for C6 in both packing regimes at concrete bin counts. -/
theorem dword_features_packing_witness :
    dword_features_ [64, 12] = 4 ∧ dword_features_ [12, 16] = 8 :=
  ⟨(dword_features_packing [64, 12]).1 (by decide),
   (dword_features_packing [12, 16]).2 (by decide)⟩

/-- C7: after `SetBaggingData(used_indices, num_data)` with non-null
indices and a row count differing from the full dataset size, the
bagging-active flag is set; being set, the full subset's indices are
re-copied to the device before the next accelerated leaf histogram
request (modelled by `BeforeTrain`). -/
theorem setBaggingData_flag_and_recopy (st : GPUTreeLearnerState)
    (idx : List Nat) (n : data_size_t) (h : n ≠ st.num_data_) :
    (SetBaggingData st (some idx) n).use_bagging_ = true
    ∧ (BeforeTrain (SetBaggingData st (some idx) n)).device_data_indices_
        = some idx := by
  simp [SetBaggingData, BeforeTrain, h]

/-- Witness for C7: a bagging subset strictly smaller than the dataset. -/
theorem setBaggingData_flag_and_recopy_witness :
    (SetBaggingData sampleDenseState (some [0, 2, 4]) 3).use_bagging_ = true
    ∧ (BeforeTrain (SetBaggingData sampleDenseState (some [0, 2, 4])
        3)).device_data_indices_ = some [0, 2, 4] :=
  setBaggingData_flag_and_recopy sampleDenseState [0, 2, 4] 3
    (by simp [sampleDenseState])

/-- C8: issuing a construction followed by a result fetch twice with the
same inputs yields identical histograms — the materialized histogram does
not depend on the prior buffer state (scratch leftovers, stale outputs,
pending tokens), so repeated runs on equal inputs are deterministic. -/
theorem pipeline_deterministic (st1 st2 : GPUTreeLearnerState)
    (bin : Nat → Nat) (grad hess : Nat → score_t)
    (data_indices : List Nat) (num_data : data_size_t)
    (hd : st1.num_dense_features_ = st2.num_dense_features_)
    (hdense : st1.num_dense_features_ ≠ 0) (hrows : num_data ≠ 0) :
    (WaitAndGetHistograms
        (ConstructGPUHistogramsAsync st1 bin grad hess data_indices
          num_data).snd).fst
      = (WaitAndGetHistograms
          (ConstructGPUHistogramsAsync st2 bin grad hess data_indices
            num_data).snd).fst := by
  have h1 : ¬(st1.num_dense_features_ = 0 ∨ num_data = 0) := by
    simp [hdense, hrows]
  have h2 : ¬(st2.num_dense_features_ = 0 ∨ num_data = 0) := by
    simp [← hd, hdense, hrows]
  simp [ConstructGPUHistogramsAsync, WaitAndGetHistograms, h1, h2]

/-- Witness for C8: a fresh state and a state with stale leftovers give
the same histogram for the same inputs. -/
theorem pipeline_deterministic_witness :
    (WaitAndGetHistograms
        (ConstructGPUHistogramsAsync sampleDenseState (fun r => r % 2)
          (fun _ => 1) (fun _ => 1) [0, 1, 2] 3).snd).fst
      = (WaitAndGetHistograms
          (ConstructGPUHistogramsAsync sampleStaleState (fun r => r % 2)
            (fun _ => 1) (fun _ => 1) [0, 1, 2] 3).snd).fst :=
  pipeline_deterministic sampleDenseState sampleStaleState (fun r => r % 2)
    (fun _ => 1) (fun _ => 1) [0, 1, 2] 3 rfl
    (by simp [sampleDenseState]) (by norm_num)

/-- C9: `SetBaggingData` with non-null indices but a row count equal to
the full dataset size leaves the bagging-active flag false, so a subset
covering all rows is treated like no bagging and triggers no device index
re-copy. -/
theorem setBaggingData_full_subset_no_bagging (st : GPUTreeLearnerState)
    (idx : List Nat) :
    (SetBaggingData st (some idx) st.num_data_).use_bagging_ = false
    ∧ (BeforeTrain (SetBaggingData st (some idx)
        st.num_data_)).device_data_indices_ = st.device_data_indices_ := by
  simp [SetBaggingData, BeforeTrain]

/-- C10: the preallocated sub-histogram scratch capacity is
1024 = 2 ^ kMaxLogWorkgroupsPerFeature, so for every leaf row count the
scratch provisioned up front covers the maximum per-feature parallelism
degree of a single feature. -/
theorem preallocd_scratch_covers_single_feature :
    preallocd_max_num_wg_ = 2 ^ kMaxLogWorkgroupsPerFeature
    ∧ ∀ n : data_size_t,
        2 ^ GetNumWorkgroupsPerFeature n ≤ preallocd_max_num_wg_ := by
  refine ⟨rfl, fun n => ?_⟩
  have h : GetNumWorkgroupsPerFeature n ≤ 10 := min_le_right _ _
  calc 2 ^ GetNumWorkgroupsPerFeature n
      ≤ 2 ^ 10 := Nat.pow_le_pow_right (by norm_num) h
    _ = preallocd_max_num_wg_ := rfl
